import Mathlib

/-!
Shallow embedding of `src/agraph/agraph.cpp` (bingocpp): the `AGraph`
individual with its raw/simplified command arrays, fitness metadata, lazy
update pipeline, constant renumbering/resizing, and evaluation entry
points.  The evaluation, simplification, liveness and string-rendering
backends live in other translation units of the repository (not under
`src/`); they enter the embedding as abstract functions collected in a
`Backends` record, except where a claim depends on their behaviour, in
which case they are modelled from the spec and marked as such.
-/

namespace Bingo

/-- Machine doubles as used by the claims: the only distinctions the
claims need are NaN versus ordinary values and equality between ordinary
values, so a double is modelled as either quiet NaN or a rational. -/
inductive EDouble where
  | nan : EDouble
  | val : ℚ → EDouble
deriving DecidableEq, Repr

/-- One row of an `Eigen::ArrayX3i` command array: `(opcode, arg1, arg2)`,
C++ `int` fields (`kOpIdx = 0`, `kFirstArgumentIndex = 1`,
`kSecondArgumentIndex = 2`). -/
structure Command where
  op : Int
  a1 : Int
  a2 : Int
deriving DecidableEq, Repr

/-- Modelled from the spec: `Op::kConstant` comes from
`operator_definitions.h`, which is not under `src/`.  The constant-terminal
opcode is one fixed distinguished opcode; its numeric value is irrelevant
to every claim, only its identity is compared (`agraph.cpp` line 327). -/
def kConstant : Int := 1

/-- An `Eigen::ArrayXXd`: a 2-D array of doubles with explicit row and
column counts (entries outside the bounds are irrelevant). -/
structure ArrayXXd where
  rows : Nat
  cols : Nat
  entry : Nat → Nat → EDouble

/-- `Eigen::ArrayXXd::Constant(rows, cols, v)`. -/
def ArrayXXd.constant (r c : Nat) (v : EDouble) : ArrayXXd :=
  ⟨r, c, fun _ _ => v⟩

/-- The arithmetic exceptions caught by the evaluation entry points:
`std::underflow_error` and `std::overflow_error`. -/
inductive ArithError where
  | underflow : ArithError
  | overflow : ArithError
deriving DecidableEq, Repr

/-- The external backends of the repository that `agraph.cpp` calls but
whose definitions are not under `src/`: the local simplification pass, the
external (Python) simplification oracle, the liveness analyzer, the two
evaluation entry points and the string renderer.  They are abstract here;
the evaluators return `Except ArithError` mirroring that they may throw
overflow or underflow. -/
structure Backends where
  localSimplify : List Command → List Command
  oracle : List Command → Except Unit (List Command)
  getUtilized : List Command → List Bool
  evaluate : List Command → ArrayXXd → List EDouble → Except ArithError ArrayXXd
  evaluateWithDerivative :
    List Command → ArrayXXd → List EDouble → Bool →
      Except ArithError (ArrayXXd × ArrayXXd)
  formatString : String → List Command → List EDouble → String

/-- Modelled from the spec: `simplification_backend::PythonSimplifyStack`
is not under `src/`.  Per the spec (§4.2 Thorough strategy, §7), it
delegates to the external simplification oracle and, on oracle
failure/unavailability, falls back to the local simplification strategy. -/
def PythonSimplifyStack (b : Backends) (ca : List Command) : List Command :=
  match b.oracle ca with
  | .ok simplified => simplified
  | .error _ => b.localSimplify ca

/-- `kFitnessNotSet = 1e9` (`agraph.cpp` line 25): an ordinary double. -/
def kFitnessNotSet : EDouble := .val 1000000000

/-- The state of one `AGraph` individual: raw command array, cached
simplified command array and constants (the constants array always has one
column, `kInitialConstantsCol = 1`, so it is a list of rows), and the
scalar metadata fields. -/
structure AGraph where
  command_array : List Command
  simplified_command_array : List Command
  simplified_constants : List EDouble
  needs_opt : Bool
  fitness : EDouble
  fit_set : Bool
  genetic_age : Int
  modified : Bool
  use_simplification : Bool
deriving DecidableEq, Repr

/-- The constructor `AGraph::AGraph(bool use_simplification)`: empty
arrays, `needs_opt_ = false`, `fitness_ = kFitnessNotSet`,
`fit_set_ = false`, `genetic_age_ = 0`, `modified_ = false`. -/
def AGraph.init (use_simplification : Bool) : AGraph :=
  { command_array := []
    simplified_command_array := []
    simplified_constants := []
    needs_opt := false
    fitness := kFitnessNotSet
    fit_set := false
    genetic_age := 0
    modified := false
    use_simplification := use_simplification }

/-- `AGraph::notify_agraph_modification` (lines 99-104): reset fitness to
the sentinel, clear the fitness-set flag, mark modified. -/
def notify_agraph_modification (g : AGraph) : AGraph :=
  { g with fitness := kFitnessNotSet, fit_set := false, modified := true }

/-- `AGraph::SetCommandArray` (lines 93-97): overwrite the raw command
array, then notify modification. -/
def SetCommandArray (g : AGraph) (ca : List Command) : AGraph :=
  notify_agraph_modification { g with command_array := ca }

/-- `AGraph::GetCommandArrayModifiable` (lines 87-91): notifies
modification and hands out the raw command array for external writing;
the state component is the notified state. -/
def GetCommandArrayModifiable (g : AGraph) : AGraph × List Command :=
  (notify_agraph_modification g, g.command_array)

/-- `AGraph::GetFitness` (lines 106-109). -/
def GetFitness (g : AGraph) : EDouble := g.fitness

/-- `AGraph::SetFitness` (lines 111-115): store the value and set the
fitness-set flag. -/
def SetFitness (g : AGraph) (fitness : EDouble) : AGraph :=
  { g with fitness := fitness, fit_set := true }

/-- `AGraph::IsFitnessSet` (lines 117-120). -/
def IsFitnessSet (g : AGraph) : Bool := g.fit_set

/-- `AGraph::SetFitnessStatus` (lines 122-125): set the flag directly. -/
def SetFitnessStatus (g : AGraph) (v : Bool) : AGraph :=
  { g with fit_set := v }

/-- `AGraph::SetGeneticAge` (lines 127-130). -/
def SetGeneticAge (g : AGraph) (age : Int) : AGraph :=
  { g with genetic_age := age }

/-- `AGraph::SetLocalOptimizationParams` (lines 160-164): overwrite the
constants and clear the needs-optimization flag. -/
def SetLocalOptimizationParams (g : AGraph) (params : List EDouble) : AGraph :=
  { g with simplified_constants := params, needs_opt := false }

/-- `AGraph::GetUtilizedCommands` (lines 137-140): a `const` method that
returns `simplification_backend::GetUtilizedCommands(command_array_)`,
computed over the raw command array; the state is untouched. -/
def GetUtilizedCommands (b : Backends) (g : AGraph) : AGraph × List Bool :=
  (g, b.getUtilized g.command_array)

/-- `AGraph::updateSimplifiedCommandArray` (lines 311-317): thorough
(external) simplification when `use_simplification_` is set, otherwise the
local `SimplifyStack`. -/
def updateSimplifiedCommandArray (b : Backends) (g : AGraph) : AGraph :=
  if g.use_simplification then
    { g with simplified_command_array := PythonSimplifyStack b g.command_array }
  else
    { g with simplified_command_array := b.localSimplify g.command_array }

/-- The renumbering loop of `AGraph::countAndUpdateConstants` (lines
324-333): walk the rows in order carrying the counter `n`; every row whose
opcode is `kConstant` is rewritten to `(kConstant, n, n)` and the counter
incremented; the final counter is returned. -/
def renumberConstants : List Command → Nat → List Command × Nat
  | [], n => ([], n)
  | c :: rest, n =>
    if c.op = kConstant then
      let p := renumberConstants rest (n + 1)
      (⟨kConstant, Int.ofNat n, Int.ofNat n⟩ :: p.1, p.2)
    else
      let p := renumberConstants rest n
      (c :: p.1, p.2)

/-- `AGraph::countAndUpdateConstants` (lines 324-333): renumber the
constant terminals of the simplified command array starting from 0 and
return the new constant count. -/
def countAndUpdateConstants (g : AGraph) : AGraph × Nat :=
  let p := renumberConstants g.simplified_command_array 0
  ({ g with simplified_command_array := p.1 }, p.2)

/-- `AGraph::performDefaultConstantResize` (lines 351-357): resize the
constants to `k` rows of ones; if `k > 0`, set the needs-optimization
flag. -/
def performDefaultConstantResize (g : AGraph) (k : Nat) : AGraph :=
  let g2 := { g with simplified_constants := List.replicate k (EDouble.val 1) }
  if k > 0 then { g2 with needs_opt := true } else g2

/-- `AGraph::resizeConstantsArrayIfNeeded` (lines 335-349):
`optimization_aggression` is the literal 0; the conservative branch
truncates (`conservativeResize` keeps the first `k` existing rows) when
`k` does not exceed the current size; the exact-reuse branch is inert; the
default resize runs otherwise. -/
def resizeConstantsArrayIfNeeded (g : AGraph) (k : Nat) : AGraph :=
  let optimization_aggression : Nat := 0
  if optimization_aggression = 0 ∧ k ≤ g.simplified_constants.length then
    { g with simplified_constants := g.simplified_constants.take k }
  else if optimization_aggression = 1 ∧ k = g.simplified_constants.length then
    g
  else
    performDefaultConstantResize g k

/-- `AGraph::updateConstantsArray` (lines 319-322). -/
def updateConstantsArray (g : AGraph) : AGraph :=
  let p := countAndUpdateConstants g
  resizeConstantsArrayIfNeeded p.1 p.2

/-- `AGraph::update` (lines 305-309): simplify, reconcile constants, clear
the modified flag. -/
def update (b : Backends) (g : AGraph) : AGraph :=
  let g2 := updateSimplifiedCommandArray b g
  let g3 := updateConstantsArray g2
  { g3 with modified := false }

/-- The guard `if (modified_) { update(); }` that opens every derived
accessor (lines 144-147, 153-156, 186-189, 211-214, 241-244, 284-287,
293-296). -/
def refreshed (b : Backends) (g : AGraph) : AGraph :=
  if g.modified then update b g else g

/-- Number of `update()` invocations a derived accessor performs on entry:
the guard calls `update` exactly when `modified_` is set, else not at
all. -/
def updateCallsOnAccess (g : AGraph) : Nat :=
  if g.modified then 1 else 0

/-- `AGraph::NeedsLocalOptimization` (lines 142-149). -/
def NeedsLocalOptimization (b : Backends) (g : AGraph) : AGraph × Bool :=
  let g2 := refreshed b g
  (g2, g2.needs_opt)

/-- `AGraph::GetNumberLocalOptimizationParams` (lines 151-158): the row
count of the simplified constants. -/
def GetNumberLocalOptimizationParams (b : Backends) (g : AGraph) : AGraph × Nat :=
  let g2 := refreshed b g
  (g2, g2.simplified_constants.length)

/-- `AGraph::GetComplexity` (lines 291-298): the row count of the
simplified command array. -/
def GetComplexity (b : Backends) (g : AGraph) : AGraph × Nat :=
  let g2 := refreshed b g
  (g2, g2.simplified_command_array.length)

/-- `AGraph::GetFormattedString` (lines 278-289): raw form renders the raw
command array with an empty constants vector and does not refresh;
otherwise refresh first and render the simplified form. -/
def GetFormattedString (b : Backends) (g : AGraph) (format : String)
    (raw : Bool) : AGraph × String :=
  if raw then (g, b.formatString format g.command_array [])
  else
    let g2 := refreshed b g
    (g2, b.formatString format g2.simplified_command_array g2.simplified_constants)

/-- `AGraph::EvaluateEquationAt` (lines 183-206): refresh if modified,
call the evaluation backend; catch underflow and overflow, returning
`Eigen::ArrayXXd::Constant(x.rows(), x.cols(), kNaN)` in both handlers. -/
def EvaluateEquationAt (b : Backends) (g : AGraph) (x : ArrayXXd) :
    AGraph × ArrayXXd :=
  let g2 := refreshed b g
  match b.evaluate g2.simplified_command_array x g2.simplified_constants with
  | .ok f_of_x => (g2, f_of_x)
  | .error _ => (g2, ArrayXXd.constant x.rows x.cols .nan)

/-- `AGraph::EvaluateEquationWithXGradientAt` (lines 208-236): derivative
with respect to the input variables (`param_x = true`); both exception
handlers return a pair of `Constant(x.rows(), x.cols(), kNaN)` arrays. -/
def EvaluateEquationWithXGradientAt (b : Backends) (g : AGraph)
    (x : ArrayXXd) : AGraph × (ArrayXXd × ArrayXXd) :=
  let g2 := refreshed b g
  match b.evaluateWithDerivative g2.simplified_command_array x
      g2.simplified_constants true with
  | .ok df_dx => (g2, df_dx)
  | .error _ =>
    let nan_array := ArrayXXd.constant x.rows x.cols .nan
    (g2, (nan_array, nan_array))

/-- `AGraph::EvaluateEquationWithLocalOptGradientAt` (lines 238-266):
derivative with respect to the constants (`param_x = false`); both
exception handlers return a pair of `Constant(x.rows(), x.cols(), kNaN)`
arrays. -/
def EvaluateEquationWithLocalOptGradientAt (b : Backends) (g : AGraph)
    (x : ArrayXXd) : AGraph × (ArrayXXd × ArrayXXd) :=
  let g2 := refreshed b g
  match b.evaluateWithDerivative g2.simplified_command_array x
      g2.simplified_constants false with
  | .ok df_dc => (g2, df_dc)
  | .error _ =>
    let nan_array := ArrayXXd.constant x.rows x.cols .nan
    (g2, (nan_array, nan_array))

/-- Per-row cell difference count between two command rows: Eigen's
element-wise `!=` marks each of the three fields separately. -/
def cellDiffs (c d : Command) : Nat :=
  (if c.op = d.op then 0 else 1) + (if c.a1 = d.a1 then 0 else 1) +
    (if c.a2 = d.a2 then 0 else 1)

/-- Total differing-cell count between two equally sized command arrays:
`(a != b).count()` counts every true entry of the element-wise
comparison (Eigen requires the shapes to match). -/
def countNeqCells : List Command → List Command → Nat
  | [], _ => 0
  | _, [] => 0
  | c :: cs, d :: ds => cellDiffs c d + countNeqCells cs ds

/-- `AGraph::Distance` (lines 300-303):
`(command_array_ != agraph.GetCommandArray()).count()`. -/
def Distance (g other : AGraph) : Nat :=
  countNeqCells g.command_array other.command_array

/-- From the spec's words, for comparison with `Distance`: the Hamming
distance over rows, counting a row different if any of its three fields
differs. -/
def specRowDistance : List Command → List Command → Nat
  | [], _ => 0
  | _, [] => 0
  | c :: cs, d :: ds => (if c = d then 0 else 1) + specRowDistance cs ds

/-- From the spec's words, for comparison with the NaN-fill shape: a
successful value evaluation over batch `x` produces one output value per
sample, i.e. an `x.rows × 1` array. -/
def specExpectedValueShape (x : ArrayXXd) : Nat × Nat := (x.rows, 1)

/-- An array is filled entirely with NaN (over its declared bounds). -/
def AllNaN (a : ArrayXXd) : Prop :=
  ∀ i < a.rows, ∀ j < a.cols, a.entry i j = EDouble.nan

/-- The externally invokable operations that write or read the state used
in the fitness-coherence claims. -/
inductive AGOp where
  | setCommandArray (ca : List Command)
  | getCommandArrayModifiable
  | setFitness (v : EDouble)
  | setFitnessStatus (v : Bool)
  | setGeneticAge (n : Int)
  | setLocalOptimizationParams (p : List EDouble)
  | derivedAccess
deriving DecidableEq

/-- Effect of one operation on the state (results are discarded). -/
def applyOp (b : Backends) (g : AGraph) : AGOp → AGraph
  | .setCommandArray ca => SetCommandArray g ca
  | .getCommandArrayModifiable => (GetCommandArrayModifiable g).1
  | .setFitness v => SetFitness g v
  | .setFitnessStatus v => SetFitnessStatus g v
  | .setGeneticAge n => SetGeneticAge g n
  | .setLocalOptimizationParams p => SetLocalOptimizationParams g p
  | .derivedAccess => refreshed b g

/-- Run a sequence of operations from a starting state. -/
def runOps (b : Backends) (g : AGraph) : List AGOp → AGraph
  | [] => g
  | op :: rest => runOps b (applyOp b g op) rest

/-- Operations that neither store the sentinel through `SetFitness` nor
set the flag directly through `SetFitnessStatus`. -/
def okOp : AGOp → Bool
  | .setFitness v => decide (v ≠ kFitnessNotSet)
  | .setFitnessStatus _ => false
  | _ => true

/-- Bool-valued constant-terminal test used for filtering command rows. -/
def isConstantRow (c : Command) : Bool := c.op = kConstant

/-- A backend whose components all succeed trivially; used to instantiate
universally quantified theorems at concrete inputs. -/
def idBackend : Backends where
  localSimplify := fun l => l
  oracle := fun l => .ok l
  getUtilized := fun l => l.map fun _ => true
  evaluate := fun _ x _ => .ok x
  evaluateWithDerivative := fun _ x _ _ => .ok (x, x)
  formatString := fun _ _ _ => ""

/-- A backend whose oracle fails and whose evaluators throw overflow. -/
def failBackend : Backends :=
  { idBackend with
    oracle := fun _ => .error ()
    evaluate := fun _ _ _ => .error .overflow
    evaluateWithDerivative := fun _ _ _ _ => .error .overflow }

/-- A 1-sample, 2-feature input batch. -/
def x12 : ArrayXXd := ⟨1, 2, fun _ _ => EDouble.val 0⟩

/-- An individual differing from the fresh one only in a field. -/
def gRow (cs : List Command) : AGraph :=
  { AGraph.init false with command_array := cs }

/-- An individual with a given cached constants vector. -/
def gConsts (l : List EDouble) : AGraph :=
  { AGraph.init false with simplified_constants := l }

instance (a : ArrayXXd) : Decidable (AllNaN a) := by
  unfold AllNaN
  infer_instance

lemma updateSimplifiedCommandArray_fitness (b : Backends) (g : AGraph) :
    (updateSimplifiedCommandArray b g).fitness = g.fitness := by
  unfold updateSimplifiedCommandArray
  split <;> rfl

lemma updateSimplifiedCommandArray_fit_set (b : Backends) (g : AGraph) :
    (updateSimplifiedCommandArray b g).fit_set = g.fit_set := by
  unfold updateSimplifiedCommandArray
  split <;> rfl

lemma performDefaultConstantResize_fitness (g : AGraph) (k : Nat) :
    (performDefaultConstantResize g k).fitness = g.fitness := by
  simp only [performDefaultConstantResize]
  split <;> rfl

lemma performDefaultConstantResize_fit_set (g : AGraph) (k : Nat) :
    (performDefaultConstantResize g k).fit_set = g.fit_set := by
  simp only [performDefaultConstantResize]
  split <;> rfl

lemma resizeConstantsArrayIfNeeded_eq (g : AGraph) (k : Nat) :
    resizeConstantsArrayIfNeeded g k =
      if k ≤ g.simplified_constants.length then
        { g with simplified_constants := g.simplified_constants.take k }
      else performDefaultConstantResize g k := by
  simp [resizeConstantsArrayIfNeeded]

lemma resizeConstantsArrayIfNeeded_fitness (g : AGraph) (k : Nat) :
    (resizeConstantsArrayIfNeeded g k).fitness = g.fitness := by
  simp only [resizeConstantsArrayIfNeeded]
  split
  · rfl
  split
  · rfl
  · exact performDefaultConstantResize_fitness g k

lemma resizeConstantsArrayIfNeeded_fit_set (g : AGraph) (k : Nat) :
    (resizeConstantsArrayIfNeeded g k).fit_set = g.fit_set := by
  simp only [resizeConstantsArrayIfNeeded]
  split
  · rfl
  split
  · rfl
  · exact performDefaultConstantResize_fit_set g k

lemma update_fitness (b : Backends) (g : AGraph) :
    (update b g).fitness = g.fitness := by
  show (resizeConstantsArrayIfNeeded
      (countAndUpdateConstants (updateSimplifiedCommandArray b g)).1
      (countAndUpdateConstants (updateSimplifiedCommandArray b g)).2).fitness = g.fitness
  rw [resizeConstantsArrayIfNeeded_fitness]
  show (updateSimplifiedCommandArray b g).fitness = g.fitness
  exact updateSimplifiedCommandArray_fitness b g

lemma update_fit_set (b : Backends) (g : AGraph) :
    (update b g).fit_set = g.fit_set := by
  show (resizeConstantsArrayIfNeeded
      (countAndUpdateConstants (updateSimplifiedCommandArray b g)).1
      (countAndUpdateConstants (updateSimplifiedCommandArray b g)).2).fit_set = g.fit_set
  rw [resizeConstantsArrayIfNeeded_fit_set]
  show (updateSimplifiedCommandArray b g).fit_set = g.fit_set
  exact updateSimplifiedCommandArray_fit_set b g

lemma update_modified (b : Backends) (g : AGraph) :
    (update b g).modified = false := rfl

lemma evaluateEquationAt_fst (b : Backends) (g : AGraph) (x : ArrayXXd) :
    (EvaluateEquationAt b g x).1 = refreshed b g := by
  cases h : b.evaluate (refreshed b g).simplified_command_array x
      (refreshed b g).simplified_constants <;>
    simp [EvaluateEquationAt, h]

lemma refreshed_of_modified (b : Backends) (g : AGraph) (h : g.modified = true) :
    refreshed b g = update b g := by
  simp [refreshed, h]

lemma refreshed_of_fresh (b : Backends) (g : AGraph) (h : g.modified = false) :
    refreshed b g = g := by
  simp [refreshed, h]

/-- C10: `GetUtilizedCommands` computes the liveness mask over the raw
command array (not the simplified one) and leaves the whole `AGraph` state
unchanged: the update pipeline is never triggered even when the individual
is stale, and no metadata or cached derived state is touched. -/
theorem getUtilizedCommands_raw_and_frame (b : Backends) (g : AGraph) :
    (GetUtilizedCommands b g).1 = g ∧
    (GetUtilizedCommands b g).2 = b.getUtilized g.command_array :=
  ⟨rfl, rfl⟩

/-- C3: when the thorough (external-oracle) simplification strategy is
configured and the oracle fails, the simplified command array is computed
by the local simplification strategy instead (modelled from the spec for
`PythonSimplifyStack`, which is not under `src/`); the update pipeline
completes normally. -/
theorem oracle_failure_falls_back_to_local (b : Backends) (g : AGraph)
    (huse : g.use_simplification = true)
    (hfail : b.oracle g.command_array = Except.error ()) :
    (updateSimplifiedCommandArray b g).simplified_command_array =
      b.localSimplify g.command_array := by
  simp [updateSimplifiedCommandArray, huse, PythonSimplifyStack, hfail]

/-- Witness for C3 at a concrete failing oracle. -/
theorem oracle_failure_falls_back_witness :
    (updateSimplifiedCommandArray failBackend (AGraph.init true)).simplified_command_array =
      failBackend.localSimplify (AGraph.init true).command_array :=
  oracle_failure_falls_back_to_local failBackend (AGraph.init true) rfl rfl

/-- C4: replacing the raw command array, or obtaining modifiable access to
it, resets the fitness to the unset sentinel, clears the fitness-set flag,
and marks the state stale; the next evaluation goes through `update` on
the new program, `IsFitnessSet` reads false through it, and reads true
again only after `SetFitness`. -/
theorem raw_write_resets_fitness_and_marks_stale (b : Backends) (g : AGraph)
    (ca : List Command) (x : ArrayXXd) (v : EDouble) :
    (SetCommandArray g ca).fitness = kFitnessNotSet ∧
    (SetCommandArray g ca).fit_set = false ∧
    (SetCommandArray g ca).modified = true ∧
    IsFitnessSet (SetCommandArray g ca) = false ∧
    (GetCommandArrayModifiable g).1.fitness = kFitnessNotSet ∧
    (GetCommandArrayModifiable g).1.fit_set = false ∧
    (GetCommandArrayModifiable g).1.modified = true ∧
    (SetCommandArray g ca).command_array = ca ∧
    (EvaluateEquationAt b (SetCommandArray g ca) x).1 = update b (SetCommandArray g ca) ∧
    IsFitnessSet (EvaluateEquationAt b (SetCommandArray g ca) x).1 = false ∧
    IsFitnessSet (SetFitness (SetCommandArray g ca) v) = true := by
  refine ⟨rfl, rfl, rfl, rfl, rfl, rfl, rfl, rfl, ?_, ?_, rfl⟩
  · rw [evaluateEquationAt_fst, refreshed_of_modified b _ rfl]
  · rw [evaluateEquationAt_fst, refreshed_of_modified b _ rfl]
    show (update b (SetCommandArray g ca)).fit_set = false
    rw [update_fit_set]
    rfl

/-- C6: with the conservative resize policy active, a new constant count
`k` not exceeding the current size `m` truncates the constants to their
first `k` values and leaves the needs-optimization flag unchanged;
`k > m` resizes to `k` entries all equal to 1.0 and sets the flag whenever
`k > 0`. -/
theorem constants_resize_policy (g : AGraph) (k : Nat) :
    (k ≤ g.simplified_constants.length →
      (resizeConstantsArrayIfNeeded g k).simplified_constants =
        g.simplified_constants.take k ∧
      (resizeConstantsArrayIfNeeded g k).needs_opt = g.needs_opt) ∧
    (g.simplified_constants.length < k →
      (resizeConstantsArrayIfNeeded g k).simplified_constants =
        List.replicate k (EDouble.val 1) ∧
      (0 < k → (resizeConstantsArrayIfNeeded g k).needs_opt = true)) := by
  constructor
  · intro hle
    rw [resizeConstantsArrayIfNeeded_eq, if_pos hle]
    exact ⟨rfl, rfl⟩
  · intro hlt
    rw [resizeConstantsArrayIfNeeded_eq, if_neg (by omega)]
    simp only [performDefaultConstantResize]
    constructor
    · split <;> rfl
    · intro hk
      rw [if_pos hk]

/-- Witness for C6 at the spec's two concrete scenarios: prior size 3 with
new count 2 keeps the first two values and the flag; prior size 2 with new
count 5 gives five ones and sets the flag. -/
theorem constants_resize_policy_witness :
    (resizeConstantsArrayIfNeeded (gConsts [.val 3, .val 4, .val 5]) 2).simplified_constants =
      [EDouble.val 3, EDouble.val 4] ∧
    (resizeConstantsArrayIfNeeded (gConsts [.val 3, .val 4, .val 5]) 2).needs_opt = false ∧
    (resizeConstantsArrayIfNeeded (gConsts [.val 3, .val 4]) 5).simplified_constants =
      List.replicate 5 (EDouble.val 1) ∧
    (resizeConstantsArrayIfNeeded (gConsts [.val 3, .val 4]) 5).needs_opt = true := by
  have h1 := (constants_resize_policy (gConsts [.val 3, .val 4, .val 5]) 2).1 (by decide)
  have h2 := (constants_resize_policy (gConsts [.val 3, .val 4]) 5).2 (by decide)
  exact ⟨h1.1, h1.2, h2.1, h2.2 (by decide)⟩

/-- C5: when the individual is stale, any derived accessor (evaluation,
complexity, rendering of the simplified form, the needs-optimization query
or the parameter count) performs exactly one `update` on entry and lands
in the fresh state; on a fresh individual every derived accessor performs
zero updates and leaves the state unchanged; a raw-program write itself
never recomputes the derived caches (recomputation is never eager). -/
theorem lazy_update_exactly_once (b : Backends) (g : AGraph)
    (ca : List Command) (x : ArrayXXd) (fmt : String)
    (h : g.modified = true) :
    updateCallsOnAccess g = 1 ∧
    (NeedsLocalOptimization b g).1 = update b g ∧
    (GetNumberLocalOptimizationParams b g).1 = update b g ∧
    (GetComplexity b g).1 = update b g ∧
    (GetFormattedString b g fmt false).1 = update b g ∧
    (EvaluateEquationAt b g x).1 = update b g ∧
    (update b g).modified = false ∧
    updateCallsOnAccess (update b g) = 0 ∧
    (NeedsLocalOptimization b (update b g)).1 = update b g ∧
    (GetComplexity b (update b g)).1 = update b g ∧
    (EvaluateEquationAt b (update b g) x).1 = update b g ∧
    (SetCommandArray g ca).simplified_command_array = g.simplified_command_array ∧
    (SetCommandArray g ca).simplified_constants = g.simplified_constants := by
  have hs := refreshed_of_modified b g h
  have hf := refreshed_of_fresh b (update b g) (update_modified b g)
  refine ⟨?_, ?_, ?_, ?_, ?_, ?_, update_modified b g, ?_, ?_, ?_, ?_, rfl, rfl⟩
  · simp [updateCallsOnAccess, h]
  · simp [NeedsLocalOptimization, hs]
  · simp [GetNumberLocalOptimizationParams, hs]
  · simp [GetComplexity, hs]
  · simp [GetFormattedString, hs]
  · rw [evaluateEquationAt_fst, hs]
  · simp [updateCallsOnAccess, update_modified b g]
  · simp [NeedsLocalOptimization, hf]
  · simp [GetComplexity, hf]
  · rw [evaluateEquationAt_fst, hf]

/-- Witness for C5 at a concrete stale individual. -/
theorem lazy_update_exactly_once_witness :
    updateCallsOnAccess (SetCommandArray (AGraph.init false) [⟨0, 0, 0⟩]) = 1 ∧
    (GetComplexity idBackend (SetCommandArray (AGraph.init false) [⟨0, 0, 0⟩])).1 =
      update idBackend (SetCommandArray (AGraph.init false) [⟨0, 0, 0⟩]) :=
  have h := lazy_update_exactly_once idBackend
    (SetCommandArray (AGraph.init false) [⟨0, 0, 0⟩]) [] x12 "console" rfl
  ⟨h.1, h.2.2.2.1⟩

/-- C1 (amended): when the evaluation backend throws overflow or
underflow, `EvaluateEquationAt` returns an array filled entirely with NaN
whose shape is that of the input batch `x` (rows × cols) — which agrees
with the expected one-value-per-sample output shape only when `x` has one
column; on success the backend result is returned unchanged. -/
theorem evaluateEquationAt_error_gives_nan_of_input_shape (b : Backends)
    (g : AGraph) (x : ArrayXXd) :
    (∀ e : ArithError,
      b.evaluate (refreshed b g).simplified_command_array x
          (refreshed b g).simplified_constants = Except.error e →
        (EvaluateEquationAt b g x).2 = ArrayXXd.constant x.rows x.cols EDouble.nan ∧
        AllNaN (EvaluateEquationAt b g x).2 ∧
        (EvaluateEquationAt b g x).2.rows = x.rows ∧
        (EvaluateEquationAt b g x).2.cols = x.cols) ∧
    (∀ f : ArrayXXd,
      b.evaluate (refreshed b g).simplified_command_array x
          (refreshed b g).simplified_constants = Except.ok f →
        (EvaluateEquationAt b g x).2 = f) := by
  constructor
  · intro e he
    have hres : (EvaluateEquationAt b g x).2 =
        ArrayXXd.constant x.rows x.cols EDouble.nan := by
      simp [EvaluateEquationAt, he]
    refine ⟨hres, ?_, ?_, ?_⟩
    · rw [hres]
      intro i _ j _
      rfl
    · rw [hres]
      rfl
    · rw [hres]
      rfl
  · intro f hf
    simp [EvaluateEquationAt, hf]

/-- Witness for the amended C1: a throwing backend gives the NaN fill of
the input shape, a succeeding backend's result passes through unchanged. -/
theorem evaluateEquationAt_error_gives_nan_witness :
    (EvaluateEquationAt failBackend (AGraph.init false) x12).2 =
      ArrayXXd.constant 1 2 EDouble.nan ∧
    (EvaluateEquationAt idBackend (AGraph.init false) x12).2 = x12 :=
  ⟨((evaluateEquationAt_error_gives_nan_of_input_shape failBackend
      (AGraph.init false) x12).1 ArithError.overflow rfl).1,
    (evaluateEquationAt_error_gives_nan_of_input_shape idBackend
      (AGraph.init false) x12).2 x12 rfl⟩

/-- Counterexample to C1 as stated: on a 1-sample, 2-feature batch whose
evaluation throws, the returned NaN array has 2 columns, while the shape a
successful evaluation would have produced (one value per sample) has 1
column. -/
theorem evaluate_nan_shape_counterexample :
    AllNaN (EvaluateEquationAt failBackend (AGraph.init false) x12).2 ∧
    (EvaluateEquationAt failBackend (AGraph.init false) x12).2.rows = 1 ∧
    (EvaluateEquationAt failBackend (AGraph.init false) x12).2.cols = 2 ∧
    specExpectedValueShape x12 = (1, 1) ∧
    (EvaluateEquationAt failBackend (AGraph.init false) x12).2.cols ≠
      (specExpectedValueShape x12).2 := by
  refine ⟨?_, rfl, rfl, rfl, by decide⟩
  intro i _ j _
  rfl

/-- C2 (amended): when the derivative-mode backend throws overflow or
underflow, both derivative entry points return a pair of identical
NaN-filled arrays whose shape is that of the input batch `x`
(rows × cols); this agrees with the expected per-sample value shape only
when `x` has one column, and with the constants-axis Jacobian shape only
when the constant count equals the feature count; on success the backend
pair is returned unchanged. -/
theorem gradient_error_gives_nan_pair_of_input_shape (b : Backends)
    (g : AGraph) (x : ArrayXXd) :
    (∀ e : ArithError,
      b.evaluateWithDerivative (refreshed b g).simplified_command_array x
          (refreshed b g).simplified_constants true = Except.error e →
        (EvaluateEquationWithXGradientAt b g x).2 =
          (ArrayXXd.constant x.rows x.cols EDouble.nan,
            ArrayXXd.constant x.rows x.cols EDouble.nan)) ∧
    (∀ p : ArrayXXd × ArrayXXd,
      b.evaluateWithDerivative (refreshed b g).simplified_command_array x
          (refreshed b g).simplified_constants true = Except.ok p →
        (EvaluateEquationWithXGradientAt b g x).2 = p) ∧
    (∀ e : ArithError,
      b.evaluateWithDerivative (refreshed b g).simplified_command_array x
          (refreshed b g).simplified_constants false = Except.error e →
        (EvaluateEquationWithLocalOptGradientAt b g x).2 =
          (ArrayXXd.constant x.rows x.cols EDouble.nan,
            ArrayXXd.constant x.rows x.cols EDouble.nan)) ∧
    (∀ p : ArrayXXd × ArrayXXd,
      b.evaluateWithDerivative (refreshed b g).simplified_command_array x
          (refreshed b g).simplified_constants false = Except.ok p →
        (EvaluateEquationWithLocalOptGradientAt b g x).2 = p) := by
  refine ⟨fun e he => ?_, fun p hp => ?_, fun e he => ?_, fun p hp => ?_⟩
  · simp [EvaluateEquationWithXGradientAt, he]
  · simp [EvaluateEquationWithXGradientAt, hp]
  · simp [EvaluateEquationWithLocalOptGradientAt, he]
  · simp [EvaluateEquationWithLocalOptGradientAt, hp]

/-- Witness for the amended C2 with a throwing and a succeeding backend. -/
theorem gradient_error_gives_nan_pair_witness :
    (EvaluateEquationWithXGradientAt failBackend (AGraph.init false) x12).2 =
      (ArrayXXd.constant 1 2 EDouble.nan, ArrayXXd.constant 1 2 EDouble.nan) ∧
    (EvaluateEquationWithLocalOptGradientAt failBackend (AGraph.init false) x12).2 =
      (ArrayXXd.constant 1 2 EDouble.nan, ArrayXXd.constant 1 2 EDouble.nan) ∧
    (EvaluateEquationWithXGradientAt idBackend (AGraph.init false) x12).2 = (x12, x12) :=
  have h1 := gradient_error_gives_nan_pair_of_input_shape failBackend
    (AGraph.init false) x12
  have h2 := gradient_error_gives_nan_pair_of_input_shape idBackend
    (AGraph.init false) x12
  ⟨h1.1 ArithError.overflow rfl, h1.2.2.1 ArithError.overflow rfl,
    h2.2.1 (x12, x12) rfl⟩

/-- Counterexample to C2 as stated: on a 1-sample, 2-feature batch whose
derivative evaluation throws, the value component of the returned pair has
2 columns, while the value shape a successful call would have produced
(one value per sample) has 1 column. -/
theorem gradient_nan_shape_counterexample :
    AllNaN (EvaluateEquationWithXGradientAt failBackend (AGraph.init false) x12).2.1 ∧
    (EvaluateEquationWithXGradientAt failBackend (AGraph.init false) x12).2.1.cols = 2 ∧
    (EvaluateEquationWithLocalOptGradientAt failBackend (AGraph.init false) x12).2.1.cols = 2 ∧
    (specExpectedValueShape x12).2 = 1 ∧
    (EvaluateEquationWithXGradientAt failBackend (AGraph.init false) x12).2.1.cols ≠
      (specExpectedValueShape x12).2 := by
  refine ⟨?_, rfl, rfl, rfl, by decide⟩
  intro i _ j _
  rfl

/-- Number of constant-terminal rows in a program, in the walk order of
the renumbering loop. -/
def countConstRows : List Command → Nat
  | [] => 0
  | c :: rest => (if c.op = kConstant then 1 else 0) + countConstRows rest

/-- The argument-field pairs of the constant-terminal rows, in row
order. -/
def constArgPairs : List Command → List (Int × Int)
  | [] => []
  | c :: rest =>
    if c.op = kConstant then (c.a1, c.a2) :: constArgPairs rest
    else constArgPairs rest

lemma renumberConstants_count (l : List Command) (n : Nat) :
    (renumberConstants l n).2 = n + countConstRows l := by
  induction l generalizing n with
  | nil => rfl
  | cons c rest ih =>
    by_cases hc : c.op = kConstant
    · rw [renumberConstants, if_pos hc]
      show (renumberConstants rest (n + 1)).2 = n + countConstRows (c :: rest)
      rw [ih (n + 1), countConstRows, if_pos hc]
      omega
    · rw [renumberConstants, if_neg hc]
      show (renumberConstants rest n).2 = n + countConstRows (c :: rest)
      rw [ih n, countConstRows, if_neg hc, Nat.zero_add]

lemma renumberConstants_length (l : List Command) (n : Nat) :
    (renumberConstants l n).1.length = l.length := by
  induction l generalizing n with
  | nil => rfl
  | cons c rest ih =>
    by_cases hc : c.op = kConstant
    · rw [renumberConstants, if_pos hc]
      show (renumberConstants rest (n + 1)).1.length + 1 = rest.length + 1
      rw [ih (n + 1)]
    · rw [renumberConstants, if_neg hc]
      show (renumberConstants rest n).1.length + 1 = rest.length + 1
      rw [ih n]

lemma renumberConstants_ops (l : List Command) (n : Nat) :
    (renumberConstants l n).1.map Command.op = l.map Command.op := by
  induction l generalizing n with
  | nil => rfl
  | cons c rest ih =>
    by_cases hc : c.op = kConstant
    · rw [renumberConstants, if_pos hc]
      show kConstant :: (renumberConstants rest (n + 1)).1.map Command.op =
        c.op :: rest.map Command.op
      rw [ih (n + 1), hc]
    · rw [renumberConstants, if_neg hc]
      show c.op :: (renumberConstants rest n).1.map Command.op =
        c.op :: rest.map Command.op
      rw [ih n]

lemma renumberConstants_args (l : List Command) (n : Nat) :
    constArgPairs (renumberConstants l n).1 =
      (List.range' n (countConstRows l)).map (fun j => (Int.ofNat j, Int.ofNat j)) := by
  induction l generalizing n with
  | nil => rfl
  | cons c rest ih =>
    by_cases hc : c.op = kConstant
    · rw [renumberConstants, if_pos hc]
      show constArgPairs (⟨kConstant, Int.ofNat n, Int.ofNat n⟩ ::
        (renumberConstants rest (n + 1)).1) = _
      rw [constArgPairs, if_pos rfl, countConstRows, if_pos hc, Nat.add_comm 1,
        List.range'_succ, List.map_cons, ih (n + 1)]
    · rw [renumberConstants, if_neg hc]
      show constArgPairs (c :: (renumberConstants rest n).1) = _
      rw [constArgPairs, if_neg hc, countConstRows, if_neg hc, Nat.zero_add, ih n]

lemma renumberConstants_preserves_nonconstant (l : List Command) (n : Nat) :
    ∀ (i : Nat) (c : Command), l[i]? = some c → ¬ c.op = kConstant →
      (renumberConstants l n).1[i]? = some c := by
  induction l generalizing n with
  | nil =>
    intro i c hc
    simp at hc
  | cons d rest ih =>
    intro i c hc hnc
    cases i with
    | zero =>
      simp only [List.getElem?_cons_zero, Option.some.injEq] at hc
      subst hc
      rw [renumberConstants, if_neg hnc]
      simp
    | succ i =>
      rw [List.getElem?_cons_succ] at hc
      by_cases hd : d.op = kConstant
      · rw [renumberConstants, if_pos hd]
        show (⟨kConstant, Int.ofNat n, Int.ofNat n⟩ ::
          (renumberConstants rest (n + 1)).1)[i + 1]? = some c
        rw [List.getElem?_cons_succ]
        exact ih (n + 1) i c hc hnc
      · rw [renumberConstants, if_neg hd]
        show (d :: (renumberConstants rest n).1)[i + 1]? = some c
        rw [List.getElem?_cons_succ]
        exact ih n i c hc hnc

/-- C7: renumbering walks the simplified program in row order, assigns
the i-th constant terminal encountered the index i in both argument
fields (overwriting the prior indices), returns the total count k, and
afterwards the constant indices are exactly 0..k-1 in order — contiguous,
no gaps, no repeats; row count and opcodes are preserved and non-constant
rows are untouched. -/
theorem constant_renumbering_contiguous (l : List Command) :
    (renumberConstants l 0).2 = countConstRows l ∧
    (renumberConstants l 0).1.length = l.length ∧
    (renumberConstants l 0).1.map Command.op = l.map Command.op ∧
    constArgPairs (renumberConstants l 0).1 =
      (List.range (renumberConstants l 0).2).map (fun j => (Int.ofNat j, Int.ofNat j)) ∧
    (∀ (i : Nat) (c : Command), l[i]? = some c → ¬ c.op = kConstant →
      (renumberConstants l 0).1[i]? = some c) := by
  refine ⟨(renumberConstants_count l 0).trans (Nat.zero_add _),
    renumberConstants_length l 0,
    renumberConstants_ops l 0, ?_, renumberConstants_preserves_nonconstant l 0⟩
  rw [renumberConstants_count l 0, Nat.zero_add, List.range_eq_range']
  exact renumberConstants_args l 0

/-- Witness for C7 at a concrete program (variable, constant, operator,
constant): the count is 2 and the non-constant operator row is
untouched. -/
theorem constant_renumbering_contiguous_witness :
    (renumberConstants [⟨0, 0, 0⟩, ⟨1, 7, 9⟩, ⟨2, 0, 1⟩, ⟨1, 3, 3⟩] 0).2 = 2 ∧
    (renumberConstants [⟨0, 0, 0⟩, ⟨1, 7, 9⟩, ⟨2, 0, 1⟩, ⟨1, 3, 3⟩] 0).1[2]? =
      some ⟨2, 0, 1⟩ :=
  have h := constant_renumbering_contiguous [⟨0, 0, 0⟩, ⟨1, 7, 9⟩, ⟨2, 0, 1⟩, ⟨1, 3, 3⟩]
  ⟨h.1.trans (by decide), h.2.2.2.2 2 ⟨2, 0, 1⟩ (by decide) (by decide)⟩

lemma cellDiffs_self (c : Command) : cellDiffs c c = 0 := by
  simp [cellDiffs]

lemma ite_eq_swap (a b : Int) : (if a = b then (0 : Nat) else 1) = (if b = a then 0 else 1) := by
  by_cases h : a = b
  · rw [if_pos h, if_pos h.symm]
  · rw [if_neg h, if_neg fun hba => h hba.symm]

lemma cellDiffs_comm (c d : Command) : cellDiffs c d = cellDiffs d c := by
  unfold cellDiffs
  rw [ite_eq_swap c.op d.op, ite_eq_swap c.a1 d.a1, ite_eq_swap c.a2 d.a2]

lemma cellDiffs_eq_zero_iff (c d : Command) : cellDiffs c d = 0 ↔ c = d := by
  constructor
  · intro h
    cases c
    cases d
    simp only [cellDiffs] at h
    split_ifs at h <;> simp_all
  · rintro rfl
    exact cellDiffs_self c

lemma cellDiffs_le_three (c d : Command) : cellDiffs c d ≤ 3 := by
  unfold cellDiffs
  split_ifs <;> omega

lemma countNeqCells_comm : ∀ l m : List Command, countNeqCells l m = countNeqCells m l
  | [], [] => rfl
  | [], _ :: _ => rfl
  | _ :: _, [] => rfl
  | c :: cs, d :: ds => by
    rw [countNeqCells, countNeqCells, cellDiffs_comm, countNeqCells_comm cs ds]

lemma countNeqCells_self : ∀ l : List Command, countNeqCells l l = 0
  | [] => rfl
  | c :: cs => by
    rw [countNeqCells, cellDiffs_self, countNeqCells_self cs]

lemma countNeqCells_eq_zero_iff :
    ∀ l m : List Command, l.length = m.length → (countNeqCells l m = 0 ↔ l = m)
  | [], [] => by simp [countNeqCells]
  | [], _ :: _ => by intro h; simp at h
  | _ :: _, [] => by intro h; simp at h
  | c :: cs, d :: ds => by
    intro h
    simp only [List.length_cons, Nat.add_right_cancel_iff] at h
    rw [countNeqCells, Nat.add_eq_zero, cellDiffs_eq_zero_iff,
      countNeqCells_eq_zero_iff cs ds h, List.cons_eq_cons]

lemma specRowDistance_le_countNeqCells :
    ∀ l m : List Command, specRowDistance l m ≤ countNeqCells l m
  | [], [] => Nat.le_refl 0
  | [], _ :: _ => Nat.le_refl 0
  | _ :: _, [] => Nat.le_refl 0
  | c :: cs, d :: ds => by
    rw [specRowDistance, countNeqCells]
    refine Nat.add_le_add ?_ (specRowDistance_le_countNeqCells cs ds)
    by_cases hcd : c = d
    · simp [hcd]
    · rw [if_neg hcd]
      have : cellDiffs c d ≠ 0 := fun h0 => hcd ((cellDiffs_eq_zero_iff c d).1 h0)
      omega

lemma countNeqCells_le_three_mul :
    ∀ l m : List Command, countNeqCells l m ≤ 3 * specRowDistance l m
  | [], [] => Nat.le_refl 0
  | [], _ :: _ => Nat.le_refl 0
  | _ :: _, [] => Nat.le_refl 0
  | c :: cs, d :: ds => by
    rw [specRowDistance, countNeqCells]
    have hrec := countNeqCells_le_three_mul cs ds
    by_cases hcd : c = d
    · subst hcd
      rw [cellDiffs_self, if_pos rfl]
      omega
    · rw [if_neg hcd]
      have := cellDiffs_le_three c d
      omega

/-- C8 (amended): `Distance` equals the number of scalar cells (field
positions) at which the two raw command arrays differ — each differing row
contributes one count per differing field, up to 3 — not the number of
differing rows; it is symmetric, zero exactly on identical raw programs of
equal row count, and bounded between the row-wise Hamming distance and
three times it. -/
theorem distance_cellwise_symmetric_zero (g1 g2 : AGraph)
    (h : g1.command_array.length = g2.command_array.length) :
    Distance g1 g2 = Distance g2 g1 ∧
    Distance g1 g1 = 0 ∧
    (Distance g1 g2 = 0 ↔ g1.command_array = g2.command_array) ∧
    specRowDistance g1.command_array g2.command_array ≤ Distance g1 g2 ∧
    Distance g1 g2 ≤ 3 * specRowDistance g1.command_array g2.command_array :=
  ⟨countNeqCells_comm g1.command_array g2.command_array,
    countNeqCells_self g1.command_array,
    countNeqCells_eq_zero_iff g1.command_array g2.command_array h,
    specRowDistance_le_countNeqCells g1.command_array g2.command_array,
    countNeqCells_le_three_mul g1.command_array g2.command_array⟩

/-- Witness for the amended C8 at two concrete individuals. -/
theorem distance_cellwise_witness :
    Distance (gRow [⟨2, 0, 1⟩]) (gRow [⟨2, 5, 1⟩]) =
      Distance (gRow [⟨2, 5, 1⟩]) (gRow [⟨2, 0, 1⟩]) ∧
    Distance (gRow [⟨2, 0, 1⟩]) (gRow [⟨2, 0, 1⟩]) = 0 :=
  have h := distance_cellwise_symmetric_zero (gRow [⟨2, 0, 1⟩]) (gRow [⟨2, 5, 1⟩]) rfl
  ⟨h.1, h.2.1⟩

/-- Counterexample to C8 as stated: two one-row programs differing in all
three fields have row-wise Hamming distance 1, but `Distance` returns 3,
the number of differing cells. -/
theorem distance_counts_cells_counterexample :
    Distance (gRow [⟨2, 0, 1⟩]) (gRow [⟨3, 5, 7⟩]) = 3 ∧
    specRowDistance (gRow [⟨2, 0, 1⟩]).command_array
      (gRow [⟨3, 5, 7⟩]).command_array = 1 ∧
    Distance (gRow [⟨2, 0, 1⟩]) (gRow [⟨3, 5, 7⟩]) ≠
      specRowDistance (gRow [⟨2, 0, 1⟩]).command_array
        (gRow [⟨3, 5, 7⟩]).command_array := by
  refine ⟨by decide, by decide, by decide⟩

lemma fitness_flag_invariant_step (b : Backends) (g : AGraph) (op : AGOp)
    (hop : okOp op = true)
    (hg : g.fitness = kFitnessNotSet ↔ g.fit_set = false) :
    (applyOp b g op).fitness = kFitnessNotSet ↔ (applyOp b g op).fit_set = false := by
  cases op with
  | setCommandArray ca => simp [applyOp, SetCommandArray, notify_agraph_modification]
  | getCommandArrayModifiable =>
    simp [applyOp, GetCommandArrayModifiable, notify_agraph_modification]
  | setFitness v =>
    have hv : ¬ v = kFitnessNotSet := by
      simpa [okOp, decide_eq_true_eq] using hop
    simp [applyOp, SetFitness, hv]
  | setFitnessStatus v => simp [okOp] at hop
  | setGeneticAge n => simpa [applyOp, SetGeneticAge] using hg
  | setLocalOptimizationParams p =>
    simpa [applyOp, SetLocalOptimizationParams] using hg
  | derivedAccess =>
    show (refreshed b g).fitness = kFitnessNotSet ↔ (refreshed b g).fit_set = false
    unfold refreshed
    split
    · rw [update_fitness, update_fit_set]
      exact hg
    · exact hg

lemma runOps_fitness_flag_invariant (b : Backends) (ops : List AGOp) :
    ∀ g : AGraph, (∀ op ∈ ops, okOp op = true) →
      (g.fitness = kFitnessNotSet ↔ g.fit_set = false) →
      ((runOps b g ops).fitness = kFitnessNotSet ↔ (runOps b g ops).fit_set = false) := by
  induction ops with
  | nil =>
    intro g _ hg
    exact hg
  | cons op rest ih =>
    intro g hops hg
    exact ih (applyOp b g op)
      (fun o ho => hops o (List.mem_cons_of_mem _ ho))
      (fitness_flag_invariant_step b g op (hops op (List.mem_cons_self _ _)) hg)

/-- C9 (amended): the sentinel `kFitnessNotSet = 1e9` is an ordinary
double and is not distinct from real fitness values; the claimed
equivalence "GetFitness returns the sentinel iff IsFitnessSet is false"
holds for every state reached from a fresh individual through operation
sequences that never call SetFitness with the sentinel value itself and
never call the direct flag setter SetFitnessStatus. -/
theorem fitness_flag_coherence_without_sentinel_writes (b : Backends)
    (u : Bool) (ops : List AGOp) (h : ∀ op ∈ ops, okOp op = true) :
    GetFitness (runOps b (AGraph.init u) ops) = kFitnessNotSet ↔
      IsFitnessSet (runOps b (AGraph.init u) ops) = false :=
  runOps_fitness_flag_invariant b ops (AGraph.init u) h
    (by simp [AGraph.init])

/-- Witness for the amended C9 along a concrete operation sequence that
writes the program, refreshes, and sets a non-sentinel fitness. -/
theorem fitness_flag_coherence_witness :
    GetFitness (runOps idBackend (AGraph.init false)
      [AGOp.setCommandArray [⟨0, 0, 0⟩], AGOp.derivedAccess,
        AGOp.setFitness (EDouble.val 5)]) = kFitnessNotSet ↔
      IsFitnessSet (runOps idBackend (AGraph.init false)
        [AGOp.setCommandArray [⟨0, 0, 0⟩], AGOp.derivedAccess,
          AGOp.setFitness (EDouble.val 5)]) = false :=
  fitness_flag_coherence_without_sentinel_writes idBackend false
    [AGOp.setCommandArray [⟨0, 0, 0⟩], AGOp.derivedAccess,
      AGOp.setFitness (EDouble.val 5)] (by decide)

/-- Counterexample to C9 as stated: `SetFitness` with the real value 1e9
(the sentinel itself) yields a reachable state whose fitness reads as the
sentinel while the fitness-set flag is true, so the sentinel is not
distinct from real fitness values and the claimed equivalence fails. -/
theorem sentinel_collision_counterexample :
    GetFitness (runOps idBackend (AGraph.init false)
      [AGOp.setFitness (EDouble.val 1000000000)]) = kFitnessNotSet ∧
    IsFitnessSet (runOps idBackend (AGraph.init false)
      [AGOp.setFitness (EDouble.val 1000000000)]) = true :=
  ⟨rfl, rfl⟩

end Bingo
